import Mathlib

/-!
Verification development for the deployment engine of `vite-plugin-deploy-ftp`
(`src/src/index.ts`, current version).  The TypeScript source is shallowly
embedded: pure computations become Lean functions, effectful operations
(FTP transport, local filesystem) are parameterised by explicit outcome
oracles, and the concurrent worker pool of `uploadFilesInBatches` is modelled
as a small-step transition system over an explicit scheduler state.
-/

namespace DeployFtp

/-! ## Data model (interfaces `UploadResult`, `UploadTask`, `DeployTargetResult`,
`FtpConfig`, remote directory entries from `basic-ftp`). -/

/-- Mirrors interface `UploadResult` (src/src/index.ts lines 171-178).
The `error?: Error` field is modelled as `Option String` (the message). -/
structure UploadResult where
  success : Bool
  file : String
  name : String
  size : Nat
  retries : Nat
  error : Option String
deriving Repr, DecidableEq

/-- Mirrors interface `UploadTask` (src/src/index.ts lines 180-184). -/
structure UploadTask where
  filePath : String
  remotePath : String
  size : Nat
deriving Repr, DecidableEq

/-- Mirrors interface `DeployTargetResult` (src/src/index.ts lines 193-198). -/
structure DeployTargetResult where
  name : String
  totalFiles : Nat
  failedCount : Nat
  error : Option String
deriving Repr, DecidableEq

/-- A remote directory entry as returned by `client.list` (basic-ftp
`FileInfo`): a name and a numeric type code (1 = regular file,
2 = directory). -/
structure RemoteEntry where
  name : String
  type : Nat
  size : Nat
deriving Repr, DecidableEq

/-! ## Path helpers

`normalizePath` from vite converts backslashes and collapses duplicate
separators; the code then additionally applies `.replace(/\/{2,}/g, '/')`.
We model the separator collapsing (the inputs produced by `getAllFiles`
contain no `.`/`..` segments, so dot-segment resolution never fires on the
paths these functions receive). -/

/-- Collapse every run of two or more consecutive slashes into a single
slash, on a character list. -/
def collapseSlashesAux : List Char → List Char
  | [] => []
  | c :: rest =>
    match rest with
    | [] => [c]
    | c2 :: rest2 =>
      if c = '/' ∧ c2 = '/' then collapseSlashesAux (c2 :: rest2)
      else c :: collapseSlashesAux (c2 :: rest2)

/-- Collapse duplicate slashes in a string; mirrors
`.replace(/\/{2,}/g, '/')` composed with the slash handling of
vite's `normalizePath`. -/
def collapseSlashes (s : String) : String :=
  ⟨collapseSlashesAux s.data⟩

/-- Drop every leading slash; mirrors `.replace(/^\/+/, '')`. -/
def dropLeadingSlashes (s : String) : String :=
  ⟨s.data.dropWhile (· = '/')⟩

/-- Character-list version of JavaScript `String.prototype.startsWith`,
kept kernel-computable. -/
def strStartsWith (s pre : String) : Bool :=
  decide (s.data.take pre.data.length = pre.data)

/-- Character-list version of JavaScript `String.prototype.endsWith`,
kept kernel-computable. -/
def strEndsWith (s suf : String) : Bool :=
  decide (s.data.drop (s.data.length - suf.data.length) = suf.data) &&
  decide (suf.data.length ≤ s.data.length)

/-- Mirrors `normalizeRemotePath` (src/src/index.ts lines 252-256):
join target directory and relative path with `/`, collapse duplicate
slashes, then fix the leading slash according to whether the target
directory is absolute. -/
def normalizeRemotePath (targetDir relativeFilePath : String) : String :=
  let joined := collapseSlashes (targetDir ++ "/" ++ relativeFilePath)
  if strStartsWith targetDir "/" then
    if strStartsWith joined "/" then joined else "/" ++ joined
  else
    dropLeadingSlashes joined

/-- Mirrors `normalizePath(path.resolve(outDir, relativeFilePath))`
(src/src/index.ts line 419) for an already-absolute, already-normalized
`outDir`, which is how the plugin computes it (line 791). -/
def resolveLocal (outDir relativeFilePath : String) : String :=
  collapseSlashes (outDir ++ "/" ++ relativeFilePath)

/-! ## `uploadFileWithRetry` (src/src/index.ts lines 328-400)

The effectful body of one attempt (ensureConnected, ensureDir, uploadFrom)
is abstracted into an outcome oracle `attemptOutcome : Nat → Option String`:
`attemptOutcome a = none` means attempt number `a` succeeds, `some e` means
it throws an error with message `e`.  The `for` loop from `attempt = 1` to
`context.maxRetries` is the recursion below; the code after the loop is the
fallback in `uploadFileWithRetry`. -/

/-- The body of the `for (let attempt = 1; attempt <= maxRetries; ...)`
loop: returns `some result` when an iteration executes a `return`
statement, `none` when the loop runs off its end.  `remaining` is the
number of loop iterations the guard `attempt <= maxRetries` still allows,
i.e. `maxRetries + 1 - attempt`; recursing on it keeps the definition
structural.  A success at attempt `a` returns with `retries = a - 1`
(lines 351-357); a failure at the final allowed attempt returns the
failed result carrying that error (lines 366-381); any other failure
sleeps and retries (lines 383-388). -/
def uploadAttemptLoop (task : UploadTask) (attemptOutcome : Nat → Option String)
    (maxRetries : Nat) : Nat → Nat → Option UploadResult
  | 0, _ => none
  | remaining + 1, attempt =>
    match attemptOutcome attempt with
    | none =>
      some { success := true, file := task.filePath, name := task.remotePath,
             size := task.size, retries := attempt - 1, error := none }
    | some e =>
      if attempt = maxRetries then
        some { success := false, file := task.filePath, name := task.remotePath,
               size := task.size, retries := attempt - 1, error := some e }
      else
        uploadAttemptLoop task attemptOutcome maxRetries remaining (attempt + 1)

/-- Mirrors `uploadFileWithRetry` (lines 328-400): run the attempt loop
starting at attempt 1 (so `maxRetries` iterations are allowed); if the
loop falls through (never happens for `maxRetries ≥ 1`, see the theorems
below), return the fallback result of lines 392-399. -/
def uploadFileWithRetry (task : UploadTask) (attemptOutcome : Nat → Option String)
    (maxRetries : Nat) : UploadResult :=
  match uploadAttemptLoop task attemptOutcome maxRetries maxRetries 1 with
  | some r => r
  | none =>
    { success := false, file := task.filePath, name := task.remotePath,
      size := task.size, retries := maxRetries, error := some "Max retries exceeded" }

/-- The transport stub of the spec's retry scenario: attempts 1 and 2
fail, every later attempt succeeds. -/
def failsTwiceThenSucceeds : Nat → Option String :=
  fun attempt => if attempt ≤ 2 then some "temporary failure" else none

/-! ## `uploadFilesInBatches` (src/src/index.ts lines 402-565)

Task construction (lines 417-446): for each relative file path the local
path and remote path are computed and the file is statted; a stat failure
immediately yields a failed `UploadResult` with `size = 0` and
`retries = 0`, a stat success yields an `UploadTask`.  The stat call is
abstracted as an oracle `statOracle : String → Except String Nat` mapping a
relative path to its size or a thrown error message.

The worker pool (lines 491-551) is modelled as a transition system:
every worker repeatedly executes `const index = currentIndex++` (an atomic
claim, since JavaScript interleaves only at `await` points), exits when
`index >= tasks.length`, and otherwise runs `uploadFileWithRetry` on
`tasks[index]` and pushes exactly one result.  The relation below allows
any interleaving of any number of workers, so every pool size
`concurrency ≥ 1` produces one of its traces. -/

/-- The failed result pushed for a stat failure
(src/src/index.ts lines 437-444). -/
def statFailResult (errMsg filePath remotePath : String) : UploadResult :=
  { success := false, file := filePath, name := remotePath,
    size := 0, retries := 0, error := some errMsg }

/-- One entry of `taskCandidates` (lines 417-429): either a ready
`UploadTask` or the failed result recorded for a stat error. -/
def mkCandidate (statOracle : String → Except String Nat)
    (outDir targetDir relativeFilePath : String) : Sum UploadTask UploadResult :=
  let filePath := resolveLocal outDir relativeFilePath
  let remotePath := normalizeRemotePath targetDir relativeFilePath
  match statOracle relativeFilePath with
  | .ok size => .inl ⟨filePath, remotePath, size⟩
  | .error e => .inr (statFailResult e filePath remotePath)

/-- The `tasks` array (lines 431-434): candidates whose stat succeeded,
in input order. -/
def mkTasks (statOracle : String → Except String Nat) (outDir targetDir : String)
    (files : List String) : List UploadTask :=
  files.filterMap (fun rel => (mkCandidate statOracle outDir targetDir rel).getLeft?)

/-- The results pushed for stat failures before any worker starts
(lines 434-445), in input order. -/
def statFailResults (statOracle : String → Except String Nat) (outDir targetDir : String)
    (files : List String) : List UploadResult :=
  files.filterMap (fun rel => (mkCandidate statOracle outDir targetDir rel).getRight?)

/-- Scheduler state of the worker pool: the shared claim counter
`currentIndex`, the multiset of claimed-but-unfinished task indices, and
the `results` list. -/
structure BatchState where
  nextIndex : Nat
  pending : List Nat
  results : List UploadResult
deriving Repr, DecidableEq

/-- One atomic step of the worker pool of `uploadFilesInBatches`
(lines 494-543), for `n` tasks whose processing outcome is
`proc : Nat → UploadResult`:
* `claim`: a worker executes `currentIndex++` and reads an index inside
  the task list, which it now owns;
* `claimBeyond`: a worker executes `currentIndex++`, reads an index past
  the task list and returns (its `while` loop exits);
* `finish`: a worker finishes its claimed task `j` and pushes the result. -/
inductive BatchStep (n : Nat) (proc : Nat → UploadResult) : BatchState → BatchState → Prop
  | claim (s : BatchState) (h : s.nextIndex < n) :
      BatchStep n proc s ⟨s.nextIndex + 1, s.nextIndex :: s.pending, s.results⟩
  | claimBeyond (s : BatchState) (h : n ≤ s.nextIndex) :
      BatchStep n proc s ⟨s.nextIndex + 1, s.pending, s.results⟩
  | finish (s : BatchState) (j : Nat) (h : j ∈ s.pending) :
      BatchStep n proc s ⟨s.nextIndex, s.pending.erase j, proc j :: s.results⟩

/-- Initial scheduler state: counter 0, nothing claimed, and the stat
failure results already pushed (lines 431-446 run before the workers). -/
def initBatchState (initResults : List UploadResult) : BatchState :=
  ⟨0, [], initResults⟩

/-- A terminal state of the pool: all workers have exited, i.e. the
counter has passed the task list and no claimed task is unfinished
(`Promise.all` at line 548 has resolved). -/
def BatchDone (n : Nat) (s : BatchState) : Prop :=
  n ≤ s.nextIndex ∧ s.pending = []

/-- Processing outcome of the task at index `i`: `uploadFileWithRetry`
with that task's own attempt-outcome oracle (line 519).  Indices past the
task list never occur in a run; they are mapped to a dummy task. -/
def procTask (tasks : List UploadTask) (uploadOutcome : Nat → Nat → Option String)
    (maxRetries : Nat) (i : Nat) : UploadResult :=
  uploadFileWithRetry (tasks.getD i ⟨"", "", 0⟩) (uploadOutcome i) maxRetries

/-- Reference description of the full result list, one entry per input
file in input order: a stat-failure result for files whose stat failed, the
retry-loop result for the others.  The second argument is the index the
file's task receives in the `tasks` array. -/
def perFileResults (statOracle : String → Except String Nat)
    (uploadOutcome : Nat → Nat → Option String) (maxRetries : Nat)
    (outDir targetDir : String) : List String → Nat → List UploadResult
  | [], _ => []
  | rel :: rest, taskIdx =>
    match mkCandidate statOracle outDir targetDir rel with
    | .inl task =>
      uploadFileWithRetry task (uploadOutcome taskIdx) maxRetries ::
        perFileResults statOracle uploadOutcome maxRetries outDir targetDir rest (taskIdx + 1)
    | .inr r =>
      r :: perFileResults statOracle uploadOutcome maxRetries outDir targetDir rest taskIdx

/-- Accounting multiset for a scheduler state: results already pushed,
plus the results the claimed-but-unfinished tasks will push, plus the
results the still-unclaimed task indices will push.  Every `BatchStep`
preserves it. -/
def batchMeasure (n : Nat) (proc : Nat → UploadResult) (s : BatchState) : Multiset UploadResult :=
  (s.results : Multiset UploadResult)
    + Multiset.map proc (s.pending : Multiset Nat)
    + Multiset.map proc (((List.range n).drop s.nextIndex : List Nat) : Multiset Nat)

/-- Concrete input for the scheduler witnesses: two files, the second of
which vanishes between enumeration and stat. -/
def wFiles : List String := ["a.css", "sub/b.js"]

/-- Stat oracle for the scheduler witnesses: `a.css` stats at 10 bytes,
everything else throws `ENOENT`. -/
def wStatOracle : String → Except String Nat :=
  fun rel => if rel = "a.css" then .ok 10 else .error "ENOENT"

/-- Upload-attempt oracle for the scheduler witnesses: every attempt of
every task succeeds. -/
def wUploadOutcome : Nat → Nat → Option String := fun _ _ => none

/-- Terminal scheduler state of the concrete single-worker run used by
the scheduler witnesses: claim index 0, finish it, then the counter
passes the one-element task list. -/
def wFinalState : BatchState :=
  ⟨1, List.erase [0] 0,
    procTask (mkTasks wStatOracle "/out" "/site" wFiles) wUploadOutcome 3 0
      :: statFailResults wStatOracle "/out" "/site" wFiles⟩

/-! ## Full backup: `createBackupFile` (src/src/index.ts lines 900-966)

Transport and filesystem effects are abstracted into an environment of
outcome oracles.  The local filesystem facts the claims are about — the
staging directory created by `createTempDir` and the zip archive created
by `createZipFile` — are threaded as an explicit state, and the
`finally` block (lines 956-965) is a function on that state. -/

/-- Outcome oracles for one run of `createBackupFile`:
`listResult` for `client.list(dir)` (line 919), `downloadResult` keyed by
remote path for `client.downloadTo` (line 933), `zipResult` for
`createZipFile` (line 939), `uploadResult` for the final
`client.uploadFrom` of the archive (line 945). -/
structure FullBackupEnv where
  listResult : Except String (List RemoteEntry)
  downloadResult : String → Except String Unit
  zipResult : Except String Unit
  uploadResult : Except String Unit

/-- Local filesystem state the backup functions manage: whether the
staging directory and the local zip archive currently exist. -/
structure BackupFs where
  stagingExists : Bool
  zipExists : Bool
deriving Repr, DecidableEq

/-- The filter of line 920-922: keep entries whose name does NOT both
start with `backup_` and end with `.zip`. -/
def notBackupZip (e : RemoteEntry) : Bool :=
  !(strStartsWith e.name "backup_" && strEndsWith e.name ".zip")

/-- The download loop of lines 931-935: for each filtered entry of type 1
(regular file), download `dir/name` to `tempPath/name`; a download error
throws out of the loop.  Returns the loop outcome and the list of
performed downloads as (local path, remote path) pairs, in order. -/
def downloadFilteredFiles (env : FullBackupEnv) (tempPath dir : String) :
    List RemoteEntry → Except String Unit × List (String × String)
  | [] => (.ok (), [])
  | e :: rest =>
    if e.type = 1 then
      let localPath := tempPath ++ "/" ++ e.name
      let remotePath := collapseSlashes (dir ++ "/" ++ e.name)
      match env.downloadResult remotePath with
      | .ok _ =>
        let tail := downloadFilteredFiles env tempPath dir rest
        (tail.1, (localPath, remotePath) :: tail.2)
      | .error err => (.error err, [])
    else
      downloadFilteredFiles env tempPath dir rest

/-- Observable outcome of one `createBackupFile` run: the value returned
to the caller (`.error e` when the function re-throws, line 955), the
final local filesystem state after the `finally` block, the downloads
performed, and the remote path of the uploaded archive when the upload
statement was reached. -/
structure FullBackupRun where
  result : Except String Unit
  fs : BackupFs
  downloads : List (String × String)
  uploadedArchive : Option String

/-- The `try` body of `createBackupFile` (lines 913-952), starting from a
filesystem state where the staging directory exists (line 910) and the
zip does not yet exist.  `createZipFile` opens its write stream first
(line 970), so once it runs the zip file exists on disk whether or not
archiving succeeds. -/
def fullBackupTryBody (env : FullBackupEnv) (dir fileName tempPath : String)
    (fs : BackupFs) : Except String Unit × BackupFs × List (String × String) × Option String :=
  match env.listResult with
  | .error e => (.error e, fs, [], none)
  | .ok remoteFiles =>
    let filteredFiles := remoteFiles.filter notBackupZip
    let dl := downloadFilteredFiles env tempPath dir filteredFiles
    match dl.1 with
    | .error e => (.error e, fs, dl.2, none)
    | .ok _ =>
      let fsZip : BackupFs := { fs with zipExists := true }
      match env.zipResult with
      | .error e => (.error e, fsZip, dl.2, none)
      | .ok _ =>
        let archivePath := collapseSlashes (dir ++ "/" ++ fileName)
        match env.uploadResult with
        | .error e => (.error e, fsZip, dl.2, some archivePath)
        | .ok _ => (.ok (), fsZip, dl.2, some archivePath)

/-- The `finally` block of lines 956-965: `tempDir.cleanup()` removes the
staging directory if it exists, then the zip file is removed if it
exists. -/
def backupFinally (fs : BackupFs) : BackupFs :=
  let fs1 : BackupFs := if fs.stagingExists then { fs with stagingExists := false } else fs
  if fs1.zipExists then { fs1 with zipExists := false } else fs1

/-- Mirrors `createBackupFile` (lines 900-966): `createTempDir` creates
the staging directory (line 910), the `try` body runs, the `catch` block
re-throws (line 955), and the `finally` block always runs. -/
def createBackupFile (env : FullBackupEnv) (dir fileName tempPath : String) : FullBackupRun :=
  let fs0 : BackupFs := { stagingExists := true, zipExists := false }
  let body := fullBackupTryBody env dir fileName tempPath fs0
  { result := body.1, fs := backupFinally body.2.1,
    downloads := body.2.2.1, uploadedArchive := body.2.2.2 }

/-- Modelled from the spec: the naming pattern the spec claims full-backup
archives are recognised by, `backup_<8 digits>_<6 digits>.zip`.  This is a
spec-side definition used only to state claim C4; the filter the code
actually applies is `notBackupZip`. -/
def specBackupArchiveName (s : String) : Bool :=
  let cs := s.data
  decide (cs.length = 26) &&
  decide (cs.take 7 = "backup_".data) &&
  ((cs.drop 7).take 8).all (·.isDigit) &&
  decide ((cs.drop 15).take 1 = ['_']) &&
  ((cs.drop 16).take 6).all (·.isDigit) &&
  decide (cs.drop 22 = ".zip".data)

/-! ## Selective backup: `createSingleBackup` (src/src/index.ts lines 989-1078) -/

/-- Outcome oracles for one run of `createSingleBackup`: `listResult` for
`client.list(dir)` (line 1004), `downloadResult` keyed by remote path
(line 1043), `uploadResult` keyed by the backup remote path
(line 1044). -/
structure SingleBackupEnv where
  listResult : Except String (List RemoteEntry)
  downloadResult : String → Except String Unit
  uploadResult : String → Except String Unit

/-- Index of the last `.` in a string, `none` when absent; mirrors
`fileName.lastIndexOf('.')` with `none` for `-1` (line 1037). -/
def lastDotIndex (s : String) : Option Nat :=
  ((List.range s.data.length).filter (fun i => s.data.getD i ' ' = '.')).getLast?

/-- The backup file name of lines 1037-1040: split at the last dot and
insert `.timestamp` before the extension (append it when the name has no
dot). -/
def insertBackupTimestamp (fileName timestamp : String) : String :=
  match lastDotIndex fileName with
  | some i => ⟨fileName.data.take i⟩ ++ "." ++ timestamp ++ ⟨fileName.data.drop i⟩
  | none => fileName ++ "." ++ timestamp

/-- Per-file body of the selective backup (lines 1034-1052), inside its
own `try`/`catch`: download the original, upload it under the timestamped
name; any error is caught and turns into `false` (counted, not
re-thrown).  Returns the success flag and, on success, the backup remote
path pushed to `backedUpFiles`. -/
def backupOneFile (env : SingleBackupEnv) (dir tempPath timestamp fileName : String) :
    Bool × Option String :=
  let _localTempPath := tempPath ++ "/" ++ fileName
  let backupFileName := insertBackupTimestamp fileName timestamp
  let backupRemotePath := collapseSlashes (dir ++ "/" ++ backupFileName)
  match env.downloadResult (collapseSlashes (dir ++ "/" ++ fileName)) with
  | .error _ => (false, none)
  | .ok _ =>
    match env.uploadResult backupRemotePath with
    | .error _ => (false, none)
    | .ok _ => (true, some backupRemotePath)

/-- Observable outcome of one `createSingleBackup` run: the value
returned to the caller, whether the staging directory still exists after
the `finally` block, and the per-file outcomes `(fileName, success,
backup remote path)` in task order. -/
structure SingleBackupRun where
  result : Except String Unit
  stagingExists : Bool
  processed : List (String × Bool × Option String)

/-- Mirrors `createSingleBackup` (lines 989-1078).  The timestamp is the
single `dayjs().format('YYYYMMDD_HHmmss')` value computed at line 997 and
shared by the whole batch; it enters the model as the `timestamp`
argument.  `backupTasks` keeps exactly the requested names present in the
remote listing (lines 1005-1010); an empty selection warns and returns
(lines 1012-1015).  The batching in chunks of 3 (lines 1028-1056) does not
change any per-file outcome, so the per-file results are listed in task
order.  The `catch` re-throws (line 1074) and the `finally` removes the
staging directory (line 1076). -/
def createSingleBackup (env : SingleBackupEnv) (dir tempPath timestamp : String)
    (singleBackFiles : List String) : SingleBackupRun :=
  let body : Except String Unit × List (String × Bool × Option String) :=
    match env.listResult with
    | .error e => (.error e, [])
    | .ok remoteFiles =>
      let backupTasks := singleBackFiles.filter
        (fun fileName => remoteFiles.any (fun f => f.name = fileName))
      if backupTasks.isEmpty then (.ok (), [])
      else
        (.ok (), backupTasks.map (fun fileName =>
          let r := backupOneFile env dir tempPath timestamp fileName
          (fileName, r.1, r.2)))
  { result := body.1, stagingExists := false, processed := body.2 }

/-! ## `deploySingleTarget` (src/src/index.ts lines 567-689) and the
`closeBundle` handler (lines 793-807) -/

/-- Mirrors interface `FtpConfig` (lines 162-169); absent optional string
fields are the empty string, which is exactly what JavaScript truthiness
tests distinguish in this code. -/
structure FtpConfig where
  name : String
  host : String
  port : Nat
  user : String
  password : String
  aliasUrl : String
deriving Repr, DecidableEq

/-- Observable side effects of one `deploySingleTarget` run that the
claims mention. -/
inductive DeployEvent
  | connectAttempt
  | backupRun
  | uploadRun
deriving Repr, DecidableEq

/-- Outcome oracles for one `deploySingleTarget` run: the local file
enumeration `getAllFiles(outDir)` (line 578), the preflight
`connectWithRetry` (line 603), `ensureDir` (line 606), `client.list`
(line 607), the backup phase of lines 609-623 (either `createSingleBackup`
or the prompt plus `createBackupFile`), and the `uploadFilesInBatches`
phase (line 625). -/
structure DeployEnv where
  localFiles : List String
  connectResult : Except String Unit
  ensureDirResult : Except String Unit
  listResult : Except String (List RemoteEntry)
  backupResult : Except String Unit
  uploadResults : Except String (List UploadResult)

/-- The `try` body of `deploySingleTarget` (lines 602-675): connect,
ensure the target directory, list it, back up when the listing is
non-empty, then upload.  Returns the upload results or the first thrown
error, together with the events performed. -/
def deployTryBlock (env : DeployEnv) :
    Except String (List UploadResult) × List DeployEvent :=
  match env.connectResult with
  | .error e => (.error e, [.connectAttempt])
  | .ok _ =>
    match env.ensureDirResult with
    | .error e => (.error e, [.connectAttempt])
    | .ok _ =>
      match env.listResult with
      | .error e => (.error e, [.connectAttempt])
      | .ok fileList =>
        if fileList.isEmpty then
          match env.uploadResults with
          | .error e => (.error e, [.connectAttempt, .uploadRun])
          | .ok rs => (.ok rs, [.connectAttempt, .uploadRun])
        else
          match env.backupResult with
          | .error e => (.error e, [.connectAttempt, .backupRun])
          | .ok _ =>
            match env.uploadResults with
            | .error e => (.error e, [.connectAttempt, .backupRun, .uploadRun])
            | .ok rs => (.ok rs, [.connectAttempt, .backupRun, .uploadRun])

/-- Mirrors `deploySingleTarget` (lines 567-689): missing credentials
short-circuit with `failedCount = 1` (lines 570-576); an empty local file
list short-circuits successfully before any client is created
(lines 584-587); otherwise the `try` body runs, a thrown error is caught
and converted into a fully-failed result (lines 676-685). -/
def deploySingleTarget (cfg : FtpConfig) (env : DeployEnv) :
    DeployTargetResult × List DeployEvent :=
  if cfg.host = "" ∨ cfg.user = "" ∨ cfg.password = "" then
    let fallbackName :=
      if cfg.name ≠ "" then cfg.name else if cfg.host ≠ "" then cfg.host else "unknown"
    ({ name := fallbackName, totalFiles := 0, failedCount := 1, error := none }, [])
  else
    let totalFiles := env.localFiles.length
    let displayName := if cfg.name ≠ "" then cfg.name else cfg.host
    if totalFiles = 0 then
      ({ name := displayName, totalFiles := 0, failedCount := 0, error := none }, [])
    else
      let tryRun := deployTryBlock env
      match tryRun.1 with
      | .ok results =>
        let successCount := (results.filter (fun r => r.success)).length
        ({ name := displayName, totalFiles := results.length,
           failedCount := results.length - successCount, error := none }, tryRun.2)
      | .error e =>
        ({ name := displayName, totalFiles := totalFiles,
           failedCount := if totalFiles > 0 then totalFiles else 1,
           error := some e }, tryRun.2)

/-- Mirrors the `closeBundle` handler tail (lines 799-806) for a deploy
run that produced `deployResults`: an empty result list returns silently;
otherwise the handler throws exactly when `failOnError` is set and some
target has failures.  The `.ok` payload is the unchanged result list. -/
def closeBundleHandler (deployResults : List DeployTargetResult) (failOnError : Bool) :
    Except String (List DeployTargetResult) :=
  if deployResults.length = 0 then .ok deployResults
  else
    let failedTargets := deployResults.filter (fun t => t.failedCount > 0)
    if 0 < failedTargets.length ∧ failOnError then
      .error ("Failed to deploy " ++ toString failedTargets.length ++ " of "
        ++ toString deployResults.length ++ " FTP targets")
    else
      .ok deployResults

/-! ## Theorems about `uploadFileWithRetry` -/

theorem uploadAttemptLoop_ne_none (task : UploadTask) (f : Nat → Option String)
    (maxRetries : Nat) :
    ∀ remaining attempt, attempt + remaining = maxRetries + 1 → attempt ≤ maxRetries →
      uploadAttemptLoop task f maxRetries remaining attempt ≠ none := by
  intro remaining
  induction remaining with
  | zero => intro attempt h1 h2; omega
  | succ rem ih =>
    intro attempt h1 h2
    simp only [uploadAttemptLoop]
    cases hfa : f attempt with
    | none => simp
    | some e =>
      simp only
      by_cases hm : attempt = maxRetries
      · simp [hm]
      · simp only [if_neg hm]
        exact ih (attempt + 1) (by omega) (by omega)

theorem uploadAttemptLoop_retries_le (task : UploadTask) (f : Nat → Option String)
    (maxRetries : Nat) :
    ∀ remaining attempt r, attempt + remaining = maxRetries + 1 → 1 ≤ attempt →
      uploadAttemptLoop task f maxRetries remaining attempt = some r →
      r.retries + 1 ≤ maxRetries := by
  intro remaining
  induction remaining with
  | zero =>
    intro attempt r h1 h2 h3
    simp [uploadAttemptLoop] at h3
  | succ rem ih =>
    intro attempt r h1 h2 h3
    simp only [uploadAttemptLoop] at h3
    cases hfa : f attempt with
    | none =>
      rw [hfa] at h3
      simp only [Option.some.injEq] at h3
      subst h3
      simp only
      omega
    | some e =>
      rw [hfa] at h3
      simp only at h3
      by_cases hm : attempt = maxRetries
      · rw [if_pos hm] at h3
        simp only [Option.some.injEq] at h3
        subst h3
        simp only
        omega
      · rw [if_neg hm] at h3
        exact ih (attempt + 1) r (by omega) (by omega) h3

theorem uploadAttemptLoop_allFail (task : UploadTask) (f : Nat → Option String)
    (maxRetries : Nat) (hf : ∀ a, f a ≠ none) :
    ∀ remaining attempt, attempt + remaining = maxRetries + 1 → attempt ≤ maxRetries →
      uploadAttemptLoop task f maxRetries remaining attempt =
        some { success := false, file := task.filePath, name := task.remotePath,
               size := task.size, retries := maxRetries - 1, error := f maxRetries } := by
  intro remaining
  induction remaining with
  | zero => intro attempt h1 h2; omega
  | succ rem ih =>
    intro attempt h1 h2
    simp only [uploadAttemptLoop]
    cases hfa : f attempt with
    | none => exact absurd hfa (hf attempt)
    | some e =>
      by_cases hm : attempt = maxRetries
      · subst hm
        simp [hfa]
      · simp only [if_neg hm]
        exact ih (attempt + 1) (by omega) (by omega)

/-- C2: with `maxRetries = 3`, an upload that fails exactly twice and
then succeeds yields a successful `UploadResult` with `retries = 2`; and
for any `maxRetries ≥ 1`, an upload whose every attempt fails yields a
failed result with `retries = maxRetries - 1` whose error field carries
the final attempt's error. -/
theorem uploadFileWithRetry_retry_semantics (task : UploadTask)
    (f : Nat → Option String) (maxRetries : Nat)
    (hmr : 1 ≤ maxRetries) (hf : ∀ a, f a ≠ none) :
    (uploadFileWithRetry ⟨"dist/index.html", "/site/index.html", 120⟩ failsTwiceThenSucceeds 3
      = { success := true, file := "dist/index.html", name := "/site/index.html",
          size := 120, retries := 2, error := none }) ∧
    uploadFileWithRetry task f maxRetries
      = { success := false, file := task.filePath, name := task.remotePath,
          size := task.size, retries := maxRetries - 1, error := f maxRetries } := by
  constructor
  · rfl
  · unfold uploadFileWithRetry
    rw [uploadAttemptLoop_allFail task f maxRetries hf maxRetries 1 (by omega) hmr]

/-- Witness for C2: the always-failing branch evaluated at
`maxRetries = 2` with a concrete stub. -/
theorem uploadFileWithRetry_retry_semantics_witness :
    uploadFileWithRetry ⟨"f", "r", 1⟩ (fun _ => some "boom") 2
      = { success := false, file := "f", name := "r", size := 1,
          retries := 1, error := some "boom" } :=
  (uploadFileWithRetry_retry_semantics ⟨"f", "r", 1⟩ (fun _ => some "boom") 2
    (by omega) (fun a => by simp)).2

/-- C10: for `maxRetries ≥ 1` the attempt loop always returns a result,
so the post-loop fallback (`retries = maxRetries`, error
`Max retries exceeded`) is unreachable, and every returned result has
`retries ≤ maxRetries - 1`. -/
theorem uploadFileWithRetry_no_fallback (task : UploadTask) (f : Nat → Option String)
    (maxRetries : Nat) (hmr : 1 ≤ maxRetries) :
    uploadAttemptLoop task f maxRetries maxRetries 1 ≠ none ∧
    (uploadFileWithRetry task f maxRetries).retries ≤ maxRetries - 1 := by
  refine ⟨uploadAttemptLoop_ne_none task f maxRetries maxRetries 1 (by omega) hmr, ?_⟩
  unfold uploadFileWithRetry
  cases hl : uploadAttemptLoop task f maxRetries maxRetries 1 with
  | none => exact absurd hl (uploadAttemptLoop_ne_none task f maxRetries maxRetries 1 (by omega) hmr)
  | some r =>
    have hb := uploadAttemptLoop_retries_le task f maxRetries maxRetries 1 r (by omega) (by omega) hl
    simp only
    omega

/-- Witness for C10 at `maxRetries = 1` with an always-succeeding stub. -/
theorem uploadFileWithRetry_no_fallback_witness :
    uploadAttemptLoop ⟨"f", "r", 0⟩ (fun _ => none) 1 1 1 ≠ none ∧
    (uploadFileWithRetry ⟨"f", "r", 0⟩ (fun _ => none) 1).retries ≤ 0 :=
  uploadFileWithRetry_no_fallback ⟨"f", "r", 0⟩ (fun _ => none) 1 (by omega)

/-! ## Theorems about `deploySingleTarget` and the `closeBundle` handler -/

/-- C5: after all selected destinations are deployed, the step throws
exactly when `failOnError` is true and some destination result has
`failedCount > 0`; with `failOnError = false` the same result list is
returned and nothing is thrown. -/
theorem closeBundle_failure_signaling (deployResults : List DeployTargetResult)
    (failOnError : Bool) :
    ((∃ e, closeBundleHandler deployResults failOnError = .error e) ↔
      (failOnError = true ∧ ∃ r ∈ deployResults, 0 < r.failedCount)) ∧
    closeBundleHandler deployResults false = .ok deployResults := by
  have hfilter : 0 < (deployResults.filter (fun t => t.failedCount > 0)).length ↔
      ∃ r ∈ deployResults, 0 < r.failedCount := by
    rw [List.length_pos, Ne, List.filter_eq_nil_iff]
    push_neg
    simp
  constructor
  · constructor
    · rintro ⟨e, he⟩
      unfold closeBundleHandler at he
      by_cases hlen : deployResults.length = 0
      · rw [if_pos hlen] at he
        exact absurd he (by simp)
      · rw [if_neg hlen] at he
        by_cases hcond : 0 < (deployResults.filter (fun t => t.failedCount > 0)).length
            ∧ failOnError = true
        · exact ⟨hcond.2, hfilter.mp hcond.1⟩
        · rw [if_neg hcond] at he
          exact absurd he (by simp)
    · rintro ⟨hfail, hr⟩
      refine ⟨"Failed to deploy "
        ++ toString (deployResults.filter (fun t => t.failedCount > 0)).length
        ++ " of " ++ toString deployResults.length ++ " FTP targets", ?_⟩
      unfold closeBundleHandler
      have hlen : ¬deployResults.length = 0 := by
        obtain ⟨r, hmem, _⟩ := hr
        have := List.length_pos.mpr (List.ne_nil_of_mem hmem)
        omega
      rw [if_neg hlen, if_pos ⟨hfilter.mpr hr, hfail⟩]
  · unfold closeBundleHandler
    by_cases hlen : deployResults.length = 0
    · rw [if_pos hlen]
    · rw [if_neg hlen, if_neg (by simp)]

/-- C8: with usable credentials and an empty local source directory,
`deploySingleTarget` returns `totalFiles = 0`, `failedCount = 0` and
performs no connection attempt. -/
theorem deploySingleTarget_empty_source (cfg : FtpConfig) (env : DeployEnv)
    (hcred : cfg.host ≠ "" ∧ cfg.user ≠ "" ∧ cfg.password ≠ "")
    (hempty : env.localFiles = []) :
    deploySingleTarget cfg env =
      ({ name := if cfg.name ≠ "" then cfg.name else cfg.host, totalFiles := 0,
         failedCount := 0, error := none }, []) ∧
    DeployEvent.connectAttempt ∉ (deploySingleTarget cfg env).2 := by
  have h1 : ¬(cfg.host = "" ∨ cfg.user = "" ∨ cfg.password = "") := by
    push_neg
    exact ⟨hcred.1, hcred.2.1, hcred.2.2⟩
  refine ⟨?_, ?_⟩ <;> simp [deploySingleTarget, h1, hempty]

/-- Witness for C8: a concrete configuration with credentials and no
local files. -/
theorem deploySingleTarget_empty_source_witness :
    deploySingleTarget ⟨"prod", "ftp.example.com", 21, "u", "p", ""⟩
        ⟨[], .ok (), .ok (), .ok [], .ok (), .ok []⟩ =
      ({ name := "prod", totalFiles := 0, failedCount := 0, error := none }, []) ∧
    DeployEvent.connectAttempt ∉ (deploySingleTarget ⟨"prod", "ftp.example.com", 21, "u", "p", ""⟩
        ⟨[], .ok (), .ok (), .ok [], .ok (), .ok []⟩).2 := by
  have h := deploySingleTarget_empty_source ⟨"prod", "ftp.example.com", 21, "u", "p", ""⟩
    ⟨[], .ok (), .ok (), .ok [], .ok (), .ok []⟩ (by refine ⟨?_, ?_, ?_⟩ <;> decide) rfl
  simpa using h

/-- C9: when the deployment of a destination throws after local
enumeration found `n ≥ 1` files, the returned result counts every local
file as failed (`totalFiles = n`, `failedCount = n`) and carries the
thrown error. -/
theorem deploySingleTarget_thrown_error_counts_all (cfg : FtpConfig) (env : DeployEnv)
    (e : String)
    (hcred : cfg.host ≠ "" ∧ cfg.user ≠ "" ∧ cfg.password ≠ "")
    (hn : 1 ≤ env.localFiles.length)
    (herr : (deployTryBlock env).1 = .error e) :
    (deploySingleTarget cfg env).1 =
      { name := if cfg.name ≠ "" then cfg.name else cfg.host,
        totalFiles := env.localFiles.length,
        failedCount := env.localFiles.length,
        error := some e } := by
  have h1 : ¬(cfg.host = "" ∨ cfg.user = "" ∨ cfg.password = "") := by
    push_neg
    exact ⟨hcred.1, hcred.2.1, hcred.2.2⟩
  have h0 : ¬env.localFiles.length = 0 := by omega
  have hpos : env.localFiles.length > 0 := by omega
  simp only [deploySingleTarget, if_neg h1, if_neg h0, herr, if_pos hpos]

/-- Witness for C9: a connect failure with one local file. -/
theorem deploySingleTarget_thrown_error_counts_all_witness :
    (deploySingleTarget ⟨"prod", "ftp.example.com", 21, "u", "p", ""⟩
        ⟨["index.html"], .error "ECONNREFUSED", .ok (), .ok [], .ok (), .ok []⟩).1 =
      { name := "prod", totalFiles := 1, failedCount := 1, error := some "ECONNREFUSED" } := by
  have h := deploySingleTarget_thrown_error_counts_all
    ⟨"prod", "ftp.example.com", 21, "u", "p", ""⟩
    ⟨["index.html"], .error "ECONNREFUSED", .ok (), .ok [], .ok (), .ok []⟩
    "ECONNREFUSED" (by refine ⟨?_, ?_, ?_⟩ <;> decide) (by decide) rfl
  simpa using h

/-! ## Theorems about the backup engine -/

theorem backupFinally_clears (fs : BackupFs) :
    (backupFinally fs).stagingExists = false ∧ (backupFinally fs).zipExists = false := by
  unfold backupFinally
  by_cases h1 : fs.stagingExists <;> by_cases h2 : fs.zipExists <;> simp [h1, h2]

theorem downloadFilteredFiles_all_ok (env : FullBackupEnv) (tempPath dir : String)
    (hdl : ∀ p, env.downloadResult p = .ok ()) :
    ∀ entries : List RemoteEntry,
      downloadFilteredFiles env tempPath dir entries =
        (.ok (), (entries.filter (fun e => e.type = 1)).map
          (fun e => (tempPath ++ "/" ++ e.name, collapseSlashes (dir ++ "/" ++ e.name)))) := by
  intro entries
  induction entries with
  | nil => rfl
  | cons e rest ih =>
    by_cases ht : e.type = 1
    · simp [downloadFilteredFiles, ht, hdl, ih, List.filter_cons]
    · simp [downloadFilteredFiles, ht, ih, List.filter_cons]

/-- C3 counterexample: in `createSingleBackup` a failure of the backup
re-upload is caught inside the per-file loop and only counted, so the
call returns normally instead of propagating an exception — refuting the
claim that both backup operations propagate a failure of the backup
upload to the caller. -/
theorem createSingleBackup_swallows_upload_failure :
    (SingleBackupEnv.uploadResult
        ⟨.ok [⟨"index.html", 1, 10⟩], fun _ => .ok (), fun _ => .error "upload failed"⟩
        "/site/index.20240101_120000.html" = .error "upload failed") ∧
    (createSingleBackup
        ⟨.ok [⟨"index.html", 1, 10⟩], fun _ => .ok (), fun _ => .error "upload failed"⟩
        "/site" "/tmp/s" "20240101_120000" ["index.html"]).result = .ok () ∧
    (createSingleBackup
        ⟨.ok [⟨"index.html", 1, 10⟩], fun _ => .ok (), fun _ => .error "upload failed"⟩
        "/site" "/tmp/s" "20240101_120000" ["index.html"]).processed
      = [("index.html", false, none)] := by
  exact ⟨rfl, rfl, rfl⟩

/-- C3 (amended): both backup operations remove the staging directory on
every exit path and `createBackupFile` also removes the local zip
archive; `createBackupFile` propagates a failure during archiving or
during the final backup upload as an exception; `createSingleBackup`
propagates failures thrown outside its per-file loop (such as the remote
listing), while per-file download/upload failures are caught and
counted. -/
theorem backup_cleanup_and_propagation (env : FullBackupEnv) (senv : SingleBackupEnv)
    (dir fileName tempPath timestamp : String) (singleBackFiles : List String) :
    (createBackupFile env dir fileName tempPath).fs.stagingExists = false ∧
    (createBackupFile env dir fileName tempPath).fs.zipExists = false ∧
    (∀ remoteFiles e, env.listResult = .ok remoteFiles →
      (downloadFilteredFiles env tempPath dir (remoteFiles.filter notBackupZip)).1 = .ok () →
      env.zipResult = .error e →
      (createBackupFile env dir fileName tempPath).result = .error e) ∧
    (∀ remoteFiles e, env.listResult = .ok remoteFiles →
      (downloadFilteredFiles env tempPath dir (remoteFiles.filter notBackupZip)).1 = .ok () →
      env.zipResult = .ok () → env.uploadResult = .error e →
      (createBackupFile env dir fileName tempPath).result = .error e) ∧
    (createSingleBackup senv dir tempPath timestamp singleBackFiles).stagingExists = false ∧
    (∀ e, senv.listResult = .error e →
      (createSingleBackup senv dir tempPath timestamp singleBackFiles).result = .error e) := by
  refine ⟨(backupFinally_clears _).1, (backupFinally_clears _).2, ?_, ?_, rfl, ?_⟩
  · intro remoteFiles e hlist hdl hzip
    simp [createBackupFile, fullBackupTryBody, hlist, hdl, hzip]
  · intro remoteFiles e hlist hdl hzip hup
    simp [createBackupFile, fullBackupTryBody, hlist, hdl, hzip, hup]
  · intro e hlist
    simp [createSingleBackup, hlist]

/-- Witness for C3 (amended): an archiving failure on a concrete
environment is propagated while both cleanup flags still clear. -/
theorem backup_cleanup_and_propagation_witness :
    (createBackupFile ⟨.ok [⟨"app.js", 1, 7⟩], fun _ => .ok (), .error "zip failed", .ok ()⟩
        "/site" "backup_20240101_120000.zip" "/tmp/b").fs.stagingExists = false ∧
    (createBackupFile ⟨.ok [⟨"app.js", 1, 7⟩], fun _ => .ok (), .error "zip failed", .ok ()⟩
        "/site" "backup_20240101_120000.zip" "/tmp/b").fs.zipExists = false ∧
    (createBackupFile ⟨.ok [⟨"app.js", 1, 7⟩], fun _ => .ok (), .error "zip failed", .ok ()⟩
        "/site" "backup_20240101_120000.zip" "/tmp/b").result = .error "zip failed" ∧
    (createSingleBackup ⟨.error "list failed", fun _ => .ok (), fun _ => .ok ()⟩
        "/site" "/tmp/s" "20240101_120000" ["index.html"]).result = .error "list failed" := by
  have h := backup_cleanup_and_propagation
    ⟨.ok [⟨"app.js", 1, 7⟩], fun _ => .ok (), .error "zip failed", .ok ()⟩
    ⟨.error "list failed", fun _ => .ok (), fun _ => .ok ()⟩
    "/site" "backup_20240101_120000.zip" "/tmp/b" "20240101_120000" ["index.html"]
  exact ⟨h.1, h.2.1, h.2.2.1 [⟨"app.js", 1, 7⟩] "zip failed" rfl rfl rfl,
    h.2.2.2.2.2 "list failed" rfl⟩

/-- C4 counterexample: the code filters prior backups by the crude test
name starts with `backup_` and ends with `.zip`, not by the pattern
`backup_<8 digits>_<6 digits>.zip`: the regular file `backup_x.zip` does
not match that pattern, yet `createBackupFile` skips it (performs no
download); a directory entry is not recursed into either (no download, no
recursive listing). -/
theorem createBackupFile_skips_nonpattern_archive :
    specBackupArchiveName "backup_x.zip" = false ∧
    specBackupArchiveName "backup_20240101_120000.zip" = true ∧
    (createBackupFile ⟨.ok [⟨"backup_x.zip", 1, 5⟩], fun _ => .ok (), .ok (), .ok ()⟩
        "/site" "backup_20240101_120000.zip" "/tmp/b").downloads = [] ∧
    (createBackupFile ⟨.ok [⟨"assets", 2, 0⟩], fun _ => .ok (), .ok (), .ok ()⟩
        "/site" "backup_20240101_120000.zip" "/tmp/b").downloads = [] := by
  exact ⟨rfl, rfl, rfl, rfl⟩

/-- C4 (amended): `createBackupFile` skips exactly the entries whose name
starts with `backup_` and ends with `.zip`; of the remaining entries it
downloads exactly those whose type is a regular file (type 1) into the
flat staging directory, and ignores every other entry — directories are
not recursed into. -/
theorem createBackupFile_download_selection (env : FullBackupEnv)
    (dir fileName tempPath : String) (remoteFiles : List RemoteEntry)
    (hlist : env.listResult = .ok remoteFiles)
    (hdl : ∀ p, env.downloadResult p = .ok ()) :
    (createBackupFile env dir fileName tempPath).downloads =
      ((remoteFiles.filter notBackupZip).filter (fun e => e.type = 1)).map
        (fun e => (tempPath ++ "/" ++ e.name, collapseSlashes (dir ++ "/" ++ e.name))) := by
  have hrun := downloadFilteredFiles_all_ok env tempPath dir hdl (remoteFiles.filter notBackupZip)
  cases hzip : env.zipResult <;> cases hup : env.uploadResult <;>
    simp [createBackupFile, fullBackupTryBody, hlist, hrun, hzip, hup]

/-- Witness for C4 (amended): a mixed listing with a prior backup, a
directory and two regular files. -/
theorem createBackupFile_download_selection_witness :
    (createBackupFile ⟨.ok [⟨"backup_20230101_000000.zip", 1, 9⟩, ⟨"assets", 2, 0⟩,
        ⟨"index.html", 1, 3⟩, ⟨"app.js", 1, 2⟩], fun _ => .ok (), .ok (), .ok ()⟩
        "/site" "backup_20240101_120000.zip" "/tmp/b").downloads =
      [("/tmp/b/index.html", "/site/index.html"), ("/tmp/b/app.js", "/site/app.js")] := by
  have h := createBackupFile_download_selection
    ⟨.ok [⟨"backup_20230101_000000.zip", 1, 9⟩, ⟨"assets", 2, 0⟩,
        ⟨"index.html", 1, 3⟩, ⟨"app.js", 1, 2⟩], fun _ => .ok (), .ok (), .ok ()⟩
    "/site" "backup_20240101_120000.zip" "/tmp/b"
    [⟨"backup_20230101_000000.zip", 1, 9⟩, ⟨"assets", 2, 0⟩,
        ⟨"index.html", 1, 3⟩, ⟨"app.js", 1, 2⟩] rfl (fun p => rfl)
  rw [h]
  rfl

/-- C6: every requested file name that exists remotely is downloaded and
re-uploaded to the same remote directory under
`<base>.<timestamp><ext>` with the single batch-wide timestamp inserted
before the extension; requested names missing remotely are dropped
without error. -/
theorem createSingleBackup_renames_existing (senv : SingleBackupEnv)
    (dir tempPath timestamp : String) (singleBackFiles : List String)
    (remoteFiles : List RemoteEntry)
    (hlist : senv.listResult = .ok remoteFiles)
    (hdl : ∀ p, senv.downloadResult p = .ok ())
    (hup : ∀ p, senv.uploadResult p = .ok ()) :
    (createSingleBackup senv dir tempPath timestamp singleBackFiles).processed =
      (singleBackFiles.filter (fun fn => remoteFiles.any (fun f => f.name = fn))).map
        (fun fn => (fn, true,
          some (collapseSlashes (dir ++ "/" ++ insertBackupTimestamp fn timestamp)))) ∧
    (createSingleBackup senv dir tempPath timestamp singleBackFiles).result = .ok () := by
  by_cases hempty :
      (singleBackFiles.filter (fun fn => remoteFiles.any (fun f => f.name = fn))) = []
  · have hb : (singleBackFiles.filter
        (fun fn => remoteFiles.any (fun f => f.name = fn))).isEmpty = true := by
      simp [hempty]
    constructor
    · simp [createSingleBackup, hlist, hb, hempty]
    · simp [createSingleBackup, hlist, hb]
  · have hb : (singleBackFiles.filter
        (fun fn => remoteFiles.any (fun f => f.name = fn))).isEmpty = false := by
      simpa using hempty
    constructor
    · simp only [createSingleBackup, hlist, hb, Bool.false_eq_true, if_false]
      refine List.map_congr_left ?_
      intro fn _
      simp [backupOneFile, hdl, hup]
    · simp [createSingleBackup, hlist, hb]

/-- Witness for C6: one existing and one missing requested name. -/
theorem createSingleBackup_renames_existing_witness :
    (createSingleBackup ⟨.ok [⟨"index.html", 1, 3⟩, ⟨"app.js", 1, 2⟩],
        fun _ => .ok (), fun _ => .ok ()⟩
        "/site" "/tmp/s" "20240101_120000" ["index.html", "missing.txt"]).processed =
      [("index.html", true, some "/site/index.20240101_120000.html")] ∧
    (createSingleBackup ⟨.ok [⟨"index.html", 1, 3⟩, ⟨"app.js", 1, 2⟩],
        fun _ => .ok (), fun _ => .ok ()⟩
        "/site" "/tmp/s" "20240101_120000" ["index.html", "missing.txt"]).result = .ok () := by
  have h := createSingleBackup_renames_existing
    ⟨.ok [⟨"index.html", 1, 3⟩, ⟨"app.js", 1, 2⟩], fun _ => .ok (), fun _ => .ok ()⟩
    "/site" "/tmp/s" "20240101_120000" ["index.html", "missing.txt"]
    [⟨"index.html", 1, 3⟩, ⟨"app.js", 1, 2⟩] rfl (fun p => rfl) (fun p => rfl)
  exact ⟨h.1.trans (by rfl), h.2⟩

/-! ## Theorems about the `uploadFilesInBatches` worker pool -/

theorem batchMeasure_step {n : Nat} {proc : Nat → UploadResult} {s t : BatchState}
    (h : BatchStep n proc s t) : batchMeasure n proc t = batchMeasure n proc s := by
  cases h with
  | claim h =>
    have hlt : s.nextIndex < (List.range n).length := by simpa using h
    unfold batchMeasure
    rw [List.drop_eq_getElem_cons hlt, List.getElem_range]
    simp only [← Multiset.cons_coe, Multiset.map_cons, ← Multiset.singleton_add,
      Multiset.map_add, Multiset.map_singleton]
    abel
  | claimBeyond h =>
    have h1 : (List.range n).drop s.nextIndex = [] :=
      List.drop_eq_nil_of_le (by simpa using h)
    have h2 : (List.range n).drop (s.nextIndex + 1) = [] :=
      List.drop_eq_nil_of_le (by simp; omega)
    unfold batchMeasure
    rw [h1, h2]
  | finish j h =>
    have hp : (s.pending : Multiset Nat)
        = j ::ₘ ((s.pending.erase j : List Nat) : Multiset Nat) := by
      rw [Multiset.cons_coe, Multiset.coe_eq_coe]
      exact List.perm_cons_erase h
    unfold batchMeasure
    rw [hp]
    simp only [← Multiset.cons_coe, Multiset.map_cons, ← Multiset.singleton_add,
      Multiset.map_add, Multiset.map_singleton]
    abel

theorem batchMeasure_run {n : Nat} {proc : Nat → UploadResult} {s t : BatchState}
    (h : Relation.ReflTransGen (BatchStep n proc) s t) :
    batchMeasure n proc t = batchMeasure n proc s := by
  induction h with
  | refl => rfl
  | tail _ hstep ih => rw [batchMeasure_step hstep, ih]

theorem batch_terminal_perm {n : Nat} {proc : Nat → UploadResult}
    {initResults : List UploadResult} {s : BatchState}
    (hreach : Relation.ReflTransGen (BatchStep n proc) (initBatchState initResults) s)
    (hdone : BatchDone n s) :
    s.results.Perm (initResults ++ (List.range n).map proc) := by
  have hm := batchMeasure_run hreach
  have hzero : (List.range n).drop s.nextIndex = [] :=
    List.drop_eq_nil_of_le (by simpa using hdone.1)
  unfold batchMeasure initBatchState at hm
  rw [hdone.2, hzero] at hm
  rw [← Multiset.coe_eq_coe]
  simpa using hm

theorem perFileResults_length (statOracle : String → Except String Nat)
    (uploadOutcome : Nat → Nat → Option String) (maxRetries : Nat)
    (outDir targetDir : String) :
    ∀ (files : List String) (k : Nat),
      (perFileResults statOracle uploadOutcome maxRetries outDir targetDir files k).length
        = files.length := by
  intro files
  induction files with
  | nil => intro k; rfl
  | cons rel rest ih =>
    intro k
    cases hc : mkCandidate statOracle outDir targetDir rel with
    | inl task => simp [perFileResults, hc, ih]
    | inr r => simp [perFileResults, hc, ih]

theorem statFails_range_perm (statOracle : String → Except String Nat)
    (uploadOutcome : Nat → Nat → Option String) (maxRetries : Nat)
    (outDir targetDir : String) :
    ∀ (files : List String) (k : Nat),
      (statFailResults statOracle outDir targetDir files ++
        (List.range (mkTasks statOracle outDir targetDir files).length).map
          (fun i => uploadFileWithRetry
            ((mkTasks statOracle outDir targetDir files).getD i ⟨"", "", 0⟩)
            (uploadOutcome (k + i)) maxRetries)).Perm
      (perFileResults statOracle uploadOutcome maxRetries outDir targetDir files k) := by
  intro files
  induction files with
  | nil => intro k; simp [statFailResults, mkTasks, perFileResults]
  | cons rel rest ih =>
    intro k
    cases hc : mkCandidate statOracle outDir targetDir rel with
    | inl task =>
      have ht : mkTasks statOracle outDir targetDir (rel :: rest)
          = task :: mkTasks statOracle outDir targetDir rest := by
        simp [mkTasks, List.filterMap_cons, hc]
      have hf : statFailResults statOracle outDir targetDir (rel :: rest)
          = statFailResults statOracle outDir targetDir rest := by
        simp [statFailResults, List.filterMap_cons, hc]
      have hmap : (List.range (task :: mkTasks statOracle outDir targetDir rest).length).map
            (fun i => uploadFileWithRetry
              ((task :: mkTasks statOracle outDir targetDir rest).getD i ⟨"", "", 0⟩)
              (uploadOutcome (k + i)) maxRetries)
          = uploadFileWithRetry task (uploadOutcome k) maxRetries ::
            (List.range (mkTasks statOracle outDir targetDir rest).length).map
              (fun i => uploadFileWithRetry
                ((mkTasks statOracle outDir targetDir rest).getD i ⟨"", "", 0⟩)
                (uploadOutcome (k + 1 + i)) maxRetries) := by
        rw [List.length_cons, List.range_succ_eq_map, List.map_cons, List.map_map]
        refine congrArg₂ _ (by simp) ?_
        refine List.map_congr_left ?_
        intro i _
        simp only [Function.comp_apply, List.getD_cons_succ]
        have harith : k + (i + 1) = k + 1 + i := by omega
        rw [harith]
      rw [ht, hf, hmap]
      simp only [perFileResults, hc]
      exact List.perm_middle.trans (List.Perm.cons _ (ih (k + 1)))
    | inr r =>
      have ht : mkTasks statOracle outDir targetDir (rel :: rest)
          = mkTasks statOracle outDir targetDir rest := by
        simp [mkTasks, List.filterMap_cons, hc]
      have hf : statFailResults statOracle outDir targetDir (rel :: rest)
          = r :: statFailResults statOracle outDir targetDir rest := by
        simp [statFailResults, List.filterMap_cons, hc]
      rw [ht, hf]
      simp only [perFileResults, hc, List.cons_append]
      exact List.Perm.cons _ (ih k)

theorem batch_terminal_perFile (files : List String)
    (statOracle : String → Except String Nat)
    (uploadOutcome : Nat → Nat → Option String) (maxRetries : Nat)
    (outDir targetDir : String) (s : BatchState)
    (hreach : Relation.ReflTransGen
      (BatchStep (mkTasks statOracle outDir targetDir files).length
        (procTask (mkTasks statOracle outDir targetDir files) uploadOutcome maxRetries))
      (initBatchState (statFailResults statOracle outDir targetDir files)) s)
    (hdone : BatchDone (mkTasks statOracle outDir targetDir files).length s) :
    s.results.Perm
      (perFileResults statOracle uploadOutcome maxRetries outDir targetDir files 0) := by
  have hperm := batch_terminal_perm hreach hdone
  have hpure := statFails_range_perm statOracle uploadOutcome maxRetries outDir targetDir files 0
  have halign : (fun i => uploadFileWithRetry
        ((mkTasks statOracle outDir targetDir files).getD i ⟨"", "", 0⟩)
        (uploadOutcome (0 + i)) maxRetries)
      = procTask (mkTasks statOracle outDir targetDir files) uploadOutcome maxRetries := by
    funext i
    simp [procTask, Nat.zero_add]
  rw [halign] at hpure
  exact hperm.trans hpure

/-- C1: in every completed run of the `uploadFilesInBatches` worker pool
(any interleaving, hence any `concurrency ≥ 1`), the results list is a
permutation of the per-input-file reference results — exactly one
`UploadResult` per input file, no omissions, no duplicates — whatever the
stat failures and upload retries were. -/
theorem uploadFilesInBatches_one_result_per_file (files : List String)
    (statOracle : String → Except String Nat)
    (uploadOutcome : Nat → Nat → Option String) (maxRetries : Nat)
    (outDir targetDir : String) (s : BatchState)
    (hreach : Relation.ReflTransGen
      (BatchStep (mkTasks statOracle outDir targetDir files).length
        (procTask (mkTasks statOracle outDir targetDir files) uploadOutcome maxRetries))
      (initBatchState (statFailResults statOracle outDir targetDir files)) s)
    (hdone : BatchDone (mkTasks statOracle outDir targetDir files).length s) :
    s.results.Perm
      (perFileResults statOracle uploadOutcome maxRetries outDir targetDir files 0) ∧
    s.results.length = files.length := by
  have h := batch_terminal_perFile files statOracle uploadOutcome maxRetries
    outDir targetDir s hreach hdone
  refine ⟨h, ?_⟩
  rw [h.length_eq]
  exact perFileResults_length statOracle uploadOutcome maxRetries outDir targetDir files 0

/-- Witness for C1: a two-file input whose second file fails to stat, run
to completion by one worker. -/
theorem uploadFilesInBatches_one_result_per_file_witness :
    wFinalState.results.Perm
      (perFileResults wStatOracle wUploadOutcome 3 "/out" "/site" wFiles 0) ∧
    wFinalState.results.length = wFiles.length := by
  apply uploadFilesInBatches_one_result_per_file wFiles wStatOracle wUploadOutcome 3
    "/out" "/site" wFinalState
  · refine Relation.ReflTransGen.head (BatchStep.claim (initBatchState
      (statFailResults wStatOracle "/out" "/site" wFiles)) (by decide)) ?_
    refine Relation.ReflTransGen.head (BatchStep.finish _ 0 (by decide)) ?_
    exact Relation.ReflTransGen.refl
  · exact ⟨by decide, by decide⟩

theorem statFail_mem_perFile (statOracle : String → Except String Nat)
    (uploadOutcome : Nat → Nat → Option String) (maxRetries : Nat)
    (outDir targetDir : String) (e : String) :
    ∀ (files : List String) (k taskIdx : Nat), k < files.length →
      statOracle (files.getD k "") = .error e →
      statFailResult e (resolveLocal outDir (files.getD k ""))
          (normalizeRemotePath targetDir (files.getD k "")) ∈
        perFileResults statOracle uploadOutcome maxRetries outDir targetDir files taskIdx := by
  intro files
  induction files with
  | nil => intro k taskIdx hk; simp at hk
  | cons rel rest ih =>
    intro k taskIdx hk hfail
    cases k with
    | zero =>
      simp only [List.getD_cons_zero] at hfail ⊢
      have hc : mkCandidate statOracle outDir targetDir rel
          = .inr (statFailResult e (resolveLocal outDir rel)
              (normalizeRemotePath targetDir rel)) := by
        simp [mkCandidate, hfail]
      simp [perFileResults, hc]
    | succ k =>
      simp only [List.getD_cons_succ] at hfail ⊢
      have hk' : k < rest.length := by simpa using hk
      cases hc : mkCandidate statOracle outDir targetDir rel with
      | inl task =>
        simp only [perFileResults, hc]
        exact List.mem_cons_of_mem _ (ih k (taskIdx + 1) hk' hfail)
      | inr r =>
        simp only [perFileResults, hc]
        exact List.mem_cons_of_mem _ (ih k taskIdx hk' hfail)

theorem mkTasks_eraseIdx (statOracle : String → Except String Nat)
    (outDir targetDir : String) (e : String) :
    ∀ (files : List String) (k : Nat), k < files.length →
      statOracle (files.getD k "") = .error e →
      mkTasks statOracle outDir targetDir files
        = mkTasks statOracle outDir targetDir (files.eraseIdx k) := by
  intro files
  induction files with
  | nil => intro k hk; simp at hk
  | cons rel rest ih =>
    intro k hk hfail
    cases k with
    | zero =>
      simp only [List.getD_cons_zero] at hfail
      simp [mkTasks, List.eraseIdx_cons_zero, List.filterMap_cons, mkCandidate, hfail]
    | succ k =>
      simp only [List.getD_cons_succ] at hfail
      have hk' : k < rest.length := by simpa using hk
      have hrest := ih k hk' hfail
      simp only [mkTasks, List.eraseIdx_cons_succ, List.filterMap_cons] at hrest ⊢
      cases (mkCandidate statOracle outDir targetDir rel).getLeft? with
      | none => exact hrest
      | some t => rw [hrest]

/-- C7: a file whose stat fails is recorded as a failed `UploadResult`
with `size = 0` and `retries = 0` (the fields of `statFailResult`), no
`UploadTask` is built for it — the task list equals the one computed
without that file, so no upload is ever attempted for it — and the
completed run still yields exactly the reference results for all files. -/
theorem statFailure_isolated (files : List String)
    (statOracle : String → Except String Nat)
    (uploadOutcome : Nat → Nat → Option String) (maxRetries : Nat)
    (outDir targetDir : String) (s : BatchState) (k : Nat) (e : String)
    (hk : k < files.length)
    (hfail : statOracle (files.getD k "") = .error e)
    (hreach : Relation.ReflTransGen
      (BatchStep (mkTasks statOracle outDir targetDir files).length
        (procTask (mkTasks statOracle outDir targetDir files) uploadOutcome maxRetries))
      (initBatchState (statFailResults statOracle outDir targetDir files)) s)
    (hdone : BatchDone (mkTasks statOracle outDir targetDir files).length s) :
    statFailResult e (resolveLocal outDir (files.getD k ""))
        (normalizeRemotePath targetDir (files.getD k "")) ∈ s.results ∧
    mkTasks statOracle outDir targetDir files
      = mkTasks statOracle outDir targetDir (files.eraseIdx k) ∧
    s.results.Perm
      (perFileResults statOracle uploadOutcome maxRetries outDir targetDir files 0) := by
  have hperm := batch_terminal_perFile files statOracle uploadOutcome maxRetries
    outDir targetDir s hreach hdone
  refine ⟨?_, mkTasks_eraseIdx statOracle outDir targetDir e files k hk hfail, hperm⟩
  exact hperm.mem_iff.mpr
    (statFail_mem_perFile statOracle uploadOutcome maxRetries outDir targetDir e files k 0
      hk hfail)

/-- Witness for C7: the same completed single-worker run as the C1
witness, with the stat failure of `sub/b.js`. -/
theorem statFailure_isolated_witness :
    statFailResult "ENOENT" (resolveLocal "/out" (wFiles.getD 1 ""))
        (normalizeRemotePath "/site" (wFiles.getD 1 "")) ∈ wFinalState.results ∧
    mkTasks wStatOracle "/out" "/site" wFiles
      = mkTasks wStatOracle "/out" "/site" (wFiles.eraseIdx 1) ∧
    wFinalState.results.Perm
      (perFileResults wStatOracle wUploadOutcome 3 "/out" "/site" wFiles 0) := by
  apply statFailure_isolated wFiles wStatOracle wUploadOutcome 3 "/out" "/site" wFinalState
    1 "ENOENT"
  · decide
  · rfl
  · refine Relation.ReflTransGen.head (BatchStep.claim (initBatchState
      (statFailResults wStatOracle "/out" "/site" wFiles)) (by decide)) ?_
    refine Relation.ReflTransGen.head (BatchStep.finish _ 0 (by decide)) ?_
    exact Relation.ReflTransGen.refl
  · exact ⟨by decide, by decide⟩

end DeployFtp
